import Mathlib

/-!
Shallow embedding of the Resiliency repository (fault-tolerant execution
orchestrator) and proofs about its claims.

Sources embedded:
- `src/CircuitBreaker.js` : the circuit-breaker state machine.
- `src/RetryPolicy.js`    : retry policy (conditions, backoff, maxAttempts).
- `src/unnamed/part_001`  : the `Resilient` orchestrator (`execute` loop,
  `shouldRetry`, `wait`, `throttle`).
- `src/TimeoutError.js`, `src/OpenCircuitError.js` : error value types.

Modelling conventions:
- JavaScript values that the policy compares with strict equality (===) are
  modelled by `JsValue`: primitives carry an `Int` payload and compare by
  value; objects carry a reference number and compare by reference identity,
  exactly as === does.
- Callbacks/hooks (`onEntry`, `onRetry`, `onAbort`, `onSuccess`, `onFailure`,
  `onFallback`, `onExit`, `onTimeout`) are modelled as events appended to an
  event log, in the exact order the source invokes them; hooks are taken as
  configured (the source guards most of them with a null check).
- Asynchrony is modelled by giving each operation invocation a settle time;
  the `Promise.race` against the timeout timer is the pure `raceResult`.
- Wall-clock timers on the breaker (`setTimeout` in `transitionTo`) are
  modelled by a `timerArmed` flag plus an explicit `fireResetTimer` event.
- The `while` loop of `Resilient.execute` need not terminate (e.g. a circuit
  breaker attached without a retry policy retries indefinitely, as the source
  comment on `shortCircuitWith` itself documents), so the loop takes fuel and
  reports `outOfFuel` when the guard was still true at exhaustion.
-/

/-- JavaScript values as compared by strict equality (===): primitives by
value, objects by reference identity. -/
inductive JsValue
  | prim (n : Int)
  | obj (ref : Nat)
deriving DecidableEq, Repr

/-- Structural (deep) equality of values relative to a heap assigning each
object reference its payload; distinct references with equal payloads are
structurally equal but not strictly (===) equal. -/
def structEq (h : Nat → Int) : JsValue → JsValue → Bool
  | .prim a, .prim b => a = b
  | .obj r, .obj t => h r = h t
  | _, _ => false

/-- Errors observable in an execution: `TimeoutError` (src/TimeoutError.js,
carries the configured duration), `OpenCircuitError`
(src/OpenCircuitError.js), and arbitrary errors raised by the wrapped
operation, distinguished by a code. Only `TimeoutError` has
`name == "TimeoutError"`, the test used at src/unnamed/part_001 line 218. -/
inductive JsError
  | timeoutError (duration : Nat)
  | openCircuitError
  | opError (code : Nat)
deriving DecidableEq, Repr

/-- The backoff options of src/RetryPolicy.js (frozen `Backoff` object). -/
inductive Backoff
  | Static
  | Linear
  | Exponential
  | Random
deriving DecidableEq, Repr

/-- RetryPolicy (src/RetryPolicy.js): field defaults as in the class body.
`onAbort`/`onRetry` hooks are modelled as events in the orchestrator. -/
structure RetryPolicy where
  abortConditions : List JsValue := []
  backoff : Backoff := .Static
  delay : Nat := 0
  maxAttempts : Nat := 1
  retryConditions : List JsValue := []
deriving DecidableEq, Repr

/-- RetryPolicy.abortIf (src/RetryPolicy.js lines 86-90): pushes the value
onto `abortConditions`. -/
def RetryPolicy.abortIf (p : RetryPolicy) (v : JsValue) : RetryPolicy :=
  { p with abortConditions := p.abortConditions ++ [v] }

/-- RetryPolicy.retryIf (src/RetryPolicy.js lines 167-171): pushes the value
onto `retryConditions`. -/
def RetryPolicy.retryIf (p : RetryPolicy) (v : JsValue) : RetryPolicy :=
  { p with retryConditions := p.retryConditions ++ [v] }

/-- RetryPolicy.canAbortIf (src/RetryPolicy.js lines 99-102):
`abortConditions.indexOf(result) > -1`; `Array.indexOf` tests with strict
equality, i.e. membership under `JsValue` equality. -/
def RetryPolicy.canAbortIf (p : RetryPolicy) (v : JsValue) : Bool :=
  p.abortConditions.contains v

/-- RetryPolicy.canRetryIf (src/RetryPolicy.js lines 111-114):
`retryConditions.indexOf(result) > -1`. -/
def RetryPolicy.canRetryIf (p : RetryPolicy) (v : JsValue) : Bool :=
  p.retryConditions.contains v

/-- The four members of the frozen `CircuitState` object
(src/CircuitBreaker.js lines 5-11): Closed, "Half-Open", Isolated, Open.
The property name `Isolate` used at lines 95, 124 and 187 of the source is
not among them, so `CircuitState.Isolate` evaluates to `undefined` in the
source; comparisons against it are false for every member. -/
inductive CBState
  | Closed
  | HalfOpen
  | Isolated
  | Open
deriving DecidableEq, Repr

/-- CircuitBreaker (src/CircuitBreaker.js lines 17-25). `failureThreshold`
is taken as configured through `openCircuitAfter` (the source leaves it
undefined until then); `timerArmed` models a pending `setTimeout` reset
timer (`timerId`), and `now` parameters below model `Date.now()`. -/
structure CircuitBreaker where
  attempts : Nat := 0
  failureThreshold : Nat
  resetTimeout : Nat := 0
  state : CBState := .Closed
  openTimestamp : Option Nat := none
  timerArmed : Bool := false
deriving DecidableEq, Repr

/-- transitionTo (src/CircuitBreaker.js lines 168-200) for a valid
`CircuitState` member. Entering Closed resets the counter, the open
timestamp and the timer; HalfOpen sets the counter to `failureThreshold - 1`;
Open arms the reset timer and records the timestamp. Entering Isolated
performs no entry effect: the source's guard at line 187 compares against
`CircuitState.Isolate`, which is `undefined`, so `"Isolated"` matches no
branch. The `onTrip` hook is not needed by any claim and is not modelled. -/
def transitionTo (cb : CircuitBreaker) (s : CBState) (now : Nat) : CircuitBreaker :=
  if cb.state = s then cb
  else
    let cb' := { cb with state := s }
    match s with
    | .Closed => { cb' with attempts := 0, openTimestamp := none, timerArmed := false }
    | .HalfOpen => { cb' with attempts := cb.failureThreshold - 1 }
    | .Isolated => cb'
    | .Open => { cb' with timerArmed := true, openTimestamp := some now }

/-- CircuitBreaker.execute (src/CircuitBreaker.js lines 93-102). The source
rejection test is `state == CircuitState.Isolate || state == CircuitState.Open`;
`CircuitState.Isolate` is `undefined` (the member is named `Isolated`), so the
first disjunct is false for every member and only the Open state rejects.
Otherwise the counter is incremented and, when it exceeds the threshold, the
breaker transitions to Open (the admitting call itself does not throw). -/
def CircuitBreaker.execute (cb : CircuitBreaker) (now : Nat) :
    Except JsError CircuitBreaker :=
  if cb.state = CBState.Open then .error .openCircuitError
  else
    let cb' := { cb with attempts := cb.attempts + 1 }
    if cb'.attempts > cb'.failureThreshold then .ok (transitionTo cb' .Open now)
    else .ok cb'

/-- CircuitBreaker.close (src/CircuitBreaker.js lines 85-88). -/
def CircuitBreaker.close (cb : CircuitBreaker) (now : Nat) : CircuitBreaker :=
  transitionTo cb .Closed now

/-- CircuitBreaker.isolate (src/CircuitBreaker.js lines 122-125) calls
`transitionTo(this, CircuitState.Isolate)`; `CircuitState.Isolate` is
`undefined`. Modelled from the spec: the external parameter-validation
collaborator (`Guard.assertEnum`, imported from the Guard repository, which
is not part of this repository) rejects a value that is not a member of the
enumeration, so the call fails with an argument error and the breaker is
unchanged. -/
def CircuitBreaker.isolate (_cb : CircuitBreaker) : Except Unit CircuitBreaker :=
  .error ()

/-- Expiry of the reset timer armed when the breaker entered Open
(src/CircuitBreaker.js line 194): transitions the breaker to HalfOpen. -/
def fireResetTimer (cb : CircuitBreaker) (now : Nat) : CircuitBreaker :=
  if cb.timerArmed then transitionTo { cb with timerArmed := false } .HalfOpen now
  else cb

/-- Iterated CircuitBreaker.execute: `k` consecutive calls (no intervening
close), propagating a thrown OpenCircuitError. -/
def execN (cb : CircuitBreaker) : Nat → Except JsError CircuitBreaker
  | 0 => .ok cb
  | k + 1 => (execN cb k).bind (fun b => b.execute 0)

deriving instance DecidableEq for Except

/-- One invocation of the wrapped operation: it settles after `time` time
units, either returning a value or raising an operation error. -/
structure AttemptOutcome where
  time : Nat
  result : Except Nat JsValue
deriving DecidableEq, Repr

/-- Lifecycle hook events, in the order `Resilient.execute` fires them. -/
inductive Event
  | entry
  | retry
  | timeout
  | abort
  | success
  | failure
  | fallback
  | exited
  | throttled
deriving DecidableEq, Repr

/-- ExecutionContext (src/unnamed/part_001 lines 9-75). `correlationId`,
`startTime` and `elapsedTime` are wall-clock/random observables used by no
claim and are not modelled. -/
structure ExecutionContext where
  attempts : Nat := 0
  exceptions : List JsError := []
deriving DecidableEq, Repr

/-- Resilient configuration (src/unnamed/part_001 lines 81-144): field
defaults model the undefined class fields (`timeout > 0` and
`rateLimit > 0` are false on undefined, modelled by 0). Note the source's
`throttle` builder (lines 383-390) assigns `this.throttleLimit`, while
`execute` (line 187) reads `this.rateLimit`; both fields are modelled.
`fallbackExecution` is modelled by the value the fallback returns. -/
structure Resilient where
  retryPolicy : Option RetryPolicy := none
  circuitBreaker : Option CircuitBreaker := none
  fallbackExecution : Option JsValue := none
  rateLimit : Nat := 0
  throttleLimit : Nat := 0
  timeout : Nat := 0
deriving DecidableEq, Repr

/-- Resilient.throttle (src/unnamed/part_001 lines 383-390): after the Guard
checks (`rateLimit` is a positive number), assigns `this.throttleLimit`.
No builder ever assigns the `rateLimit` field that `execute` reads. -/
def Resilient.throttle (r : Resilient) (rateLimit : Nat) : Resilient :=
  { r with throttleLimit := rateLimit }

/-- Resilient.fallbackTo (src/unnamed/part_001 lines 253-259). -/
def Resilient.fallbackTo (r : Resilient) (v : JsValue) : Resilient :=
  { r with fallbackExecution := some v }

/-- shouldRetry (src/unnamed/part_001 lines 427-438): with a policy,
`maxAttempts === 0` means retry forever, otherwise `attempts < maxAttempts`;
with no policy, loop while `attempts === 0`. -/
def shouldRetry (r : Resilient) (ctx : ExecutionContext) : Bool :=
  match r.retryPolicy with
  | some p => if p.maxAttempts = 0 then true else ctx.attempts < p.maxAttempts
  | none => ctx.attempts = 0

/-- wait (src/unnamed/part_001 lines 485-505): computes the inter-retry
delay from the policy's backoff, the context's attempt count, and (for
Random) `Math.floor(Math.random() * 10) + 1`, modelled by `rand + 1` for a
pre-floored draw `rand` from 0..9. -/
def wait (p : RetryPolicy) (attempts : Nat) (rand : Nat) : Nat :=
  let delay := p.delay
  if p.backoff = .Exponential then attempts ^ attempts * delay
  else if p.backoff = .Linear then attempts * delay
  else if p.backoff = .Static then delay
  else (rand + 1) * delay

/-- The `Promise.race` of src/unnamed/part_001 lines 181-192: when a timeout
is configured (`timeout > 0`) and the deadline elapses before the operation
settles, the race rejects with `TimeoutError(timeout)`; otherwise the
operation's own settlement wins (a raised error becomes `opError`). -/
def raceResult (r : Resilient) (o : AttemptOutcome) : Except JsError JsValue :=
  if 0 < r.timeout ∧ r.timeout < o.time then .error (.timeoutError r.timeout)
  else
    match o.result with
    | .ok v => .ok v
    | .error c => .error (.opError c)

/-- Mutable state of one `Resilient.execute` call: the execution context,
the (shared) breaker's current state, the hook-event log, and the number of
times the `while` loop body has started (instrumentation). -/
structure LoopState where
  ctx : ExecutionContext := {}
  breaker : Option CircuitBreaker := none
  events : List Event := []
  iterations : Nat := 0
deriving DecidableEq, Repr

/-- Outcome of one loop-body iteration: continue looping (`next`), `break`
out of the loop into the failure path (`brk`, the abort case), or `return`
from `execute` (`ret`, the success case). -/
inductive IterOut
  | next (s : LoopState)
  | brk (s : LoopState)
  | ret (s : LoopState) (v : JsValue)
deriving DecidableEq, Repr

/-- The loop state carried by an iteration outcome. -/
def IterOut.state : IterOut → LoopState
  | .next s => s
  | .brk s => s
  | .ret s _ => s

/-- The success path of the loop body (src/unnamed/part_001 lines 205-214):
onSuccess, close the breaker if attached, onExit, and return the result. -/
def iterateSuccess (s : LoopState) (v : JsValue) : IterOut :=
  .ret { s with breaker := s.breaker.map (fun cb => cb.close 0),
                events := s.events ++ [Event.success, Event.exited] } v

/-- The loop body from the `attempts++` at src/unnamed/part_001 line 180 to
line 229: count the attempt, invoke the operation racing the timeout, then
classify the settled result against the retry policy (abort breaks out,
forced retry continues, otherwise success); a raised error fires onTimeout
when it is a TimeoutError (`e.name == "TimeoutError"`, line 218) and is
pushed onto the exceptions list. -/
def iterateAttempt (r : Resilient) (op : Nat → AttemptOutcome) (s : LoopState) : IterOut :=
  let i := s.ctx.attempts
  let s1 := { s with ctx := { s.ctx with attempts := i + 1 } }
  match raceResult r (op i) with
  | .error e =>
      let s2 :=
        match e with
        | .timeoutError _ => { s1 with events := s1.events ++ [Event.timeout] }
        | _ => s1
      .next { s2 with ctx := { s2.ctx with exceptions := s2.ctx.exceptions ++ [e] } }
  | .ok v =>
      match r.retryPolicy with
      | some p =>
          if p.canAbortIf v then .brk { s1 with events := s1.events ++ [Event.abort] }
          else if p.canRetryIf v then .next s1
          else iterateSuccess s1 v
      | none => iterateSuccess s1 v

/-- One iteration of the `while` loop of Resilient.execute
(src/unnamed/part_001 lines 162-230), assuming the guard held: on a retry
(attempts > 0) the backoff wait and onRetry run first; then the breaker is
consulted (a thrown OpenCircuitError is caught and pushed without counting
an attempt); then the attempt proper runs. The throttle branch at lines
187-188 reads `this.rateLimit`, which no builder assigns (it is 0 for every
configuration built through the public API), so the `userCode()` branch of
line 190 always runs and `onThrottled` is never invoked by `execute`. -/
def iterate (r : Resilient) (op : Nat → AttemptOutcome) (s : LoopState) : IterOut :=
  let s0 : LoopState :=
    { s with iterations := s.iterations + 1,
             events := if 0 < s.ctx.attempts then s.events ++ [Event.retry] else s.events }
  match s0.breaker with
  | some cb =>
      match cb.execute 0 with
      | .error e =>
          .next { s0 with ctx := { s0.ctx with exceptions := s0.ctx.exceptions ++ [e] } }
      | .ok cb' => iterateAttempt r op { s0 with breaker := some cb' }
  | none => iterateAttempt r op s0

/-- Result of a whole `execute` call: a returned value, completion with no
result (undefined), or fuel exhaustion while the loop guard still held. -/
inductive ExecResult
  | value (v : JsValue)
  | noResult
  | outOfFuel
deriving DecidableEq, Repr

/-- The code after the loop (src/unnamed/part_001 lines 232-245): onFailure,
onExit, then the fallback (onFallback and its result) when configured,
otherwise `execute` completes with no result. -/
def finish (r : Resilient) (s : LoopState) : LoopState × ExecResult :=
  let s1 := { s with events := s.events ++ [Event.failure, Event.exited] }
  match r.fallbackExecution with
  | some v => ({ s1 with events := s1.events ++ [Event.fallback] }, .value v)
  | none => (s1, .noResult)

/-- The `while (shouldRetry(this))` loop, with fuel. -/
def executeLoop (r : Resilient) (op : Nat → AttemptOutcome) :
    Nat → LoopState → LoopState × ExecResult
  | 0, s => (s, .outOfFuel)
  | fuel + 1, s =>
      if shouldRetry r s.ctx then
        match iterate r op s with
        | .next s' => executeLoop r op fuel s'
        | .brk s' => finish r s'
        | .ret s' v => (s', .value v)
      else finish r s

/-- Resilient.execute (src/unnamed/part_001 lines 153-245): fresh
ExecutionContext, onEntry, then the loop; the breaker state is taken from
the configuration and threaded through the call. -/
def Resilient.execute (r : Resilient) (op : Nat → AttemptOutcome) (fuel : Nat) :
    LoopState × ExecResult :=
  executeLoop r op fuel { ctx := {}, breaker := r.circuitBreaker, events := [Event.entry] }

/-- Discriminator for timeout errors, mirroring the `e.name == "TimeoutError"`
test of the source. -/
def JsError.isTimeout : JsError → Bool
  | .timeoutError _ => true
  | _ => false

/-- The error with which the race of attempt `i` settles (meaningful when
that attempt does fail). -/
def racedErr (r : Resilient) (op : Nat → AttemptOutcome) (i : Nat) : JsError :=
  match raceResult r (op i) with
  | .error e => e
  | .ok _ => .opError 0

/-- The errors with which attempts `a, a+1, ..., a+m-1` settle, in order. -/
def racedErrs (r : Resilient) (op : Nat → AttemptOutcome) : Nat → Nat → List JsError
  | _, 0 => []
  | a, m + 1 => racedErr r op a :: racedErrs r op (a + 1) m

/-- The hook events fired by the loop iteration that runs failing attempt
`i`: onRetry when it is a retry, then onTimeout when the race was lost to
the deadline. -/
def attemptEvents (r : Resilient) (op : Nat → AttemptOutcome) (i : Nat) : List Event :=
  (if 0 < i then [Event.retry] else []) ++
  (match raceResult r (op i) with
   | .error (.timeoutError _) => [Event.timeout]
   | _ => [])

/-- The hook events fired by a run of `m` consecutive failing attempts
starting at attempt index `a`. -/
def failRunEvents (r : Resilient) (op : Nat → AttemptOutcome) : Nat → Nat → List Event
  | _, 0 => []
  | a, m + 1 => attemptEvents r op a ++ failRunEvents r op (a + 1) m

/-- The context invariant claimed by the spec's data model: no more recorded
exceptions than counted attempts. -/
def ctxInv (s : LoopState) : Prop :=
  s.ctx.exceptions.length ≤ s.ctx.attempts

/-! Helper lemmas shared by several claims. -/

/-- Folding `abortIf` over a list of configured values appends them to the
abort conditions and leaves the retry conditions alone. -/
theorem foldl_abortIf (p : RetryPolicy) (vs : List JsValue) :
    (vs.foldl RetryPolicy.abortIf p).abortConditions = p.abortConditions ++ vs ∧
    (vs.foldl RetryPolicy.abortIf p).retryConditions = p.retryConditions := by
  induction vs generalizing p with
  | nil => simp
  | cons v vs ih =>
      simpa [RetryPolicy.abortIf] using ih { p with abortConditions := p.abortConditions ++ [v] }

/-- Folding `retryIf` over a list of configured values appends them to the
retry conditions and leaves the abort conditions alone. -/
theorem foldl_retryIf (p : RetryPolicy) (vs : List JsValue) :
    (vs.foldl RetryPolicy.retryIf p).retryConditions = p.retryConditions ++ vs ∧
    (vs.foldl RetryPolicy.retryIf p).abortConditions = p.abortConditions := by
  induction vs generalizing p with
  | nil => simp
  | cons v vs ih =>
      simpa [RetryPolicy.retryIf] using ih { p with retryConditions := p.retryConditions ++ [v] }

/-- C7: For every retry with attempt number `n` and configured base delay
`D > 0`, the inter-retry wait computed by the orchestrator equals `D` under
Static backoff, `n * D` under Linear backoff, `n ^ n * D` under Exponential
backoff, and `k * D` for an integer `k` drawn from 1..10 under Random
backoff (the draw `rand + 1` maps the uniform pre-floored draw `rand` from
0..9 bijectively onto 1..10, so `k` is uniform). -/
theorem c7_backoff_laws (p : RetryPolicy) (n rand D : Nat) (hD : p.delay = D) :
    (p.backoff = .Static → wait p n rand = D) ∧
    (p.backoff = .Linear → wait p n rand = n * D) ∧
    (p.backoff = .Exponential → wait p n rand = n ^ n * D) ∧
    (p.backoff = .Random → rand < 10 →
      ∃ k, 1 ≤ k ∧ k ≤ 10 ∧ wait p n rand = k * D ∧ k = rand + 1) ∧
    (∀ k, (∃ r, r < 10 ∧ r + 1 = k) ↔ (1 ≤ k ∧ k ≤ 10)) := by
  refine ⟨?_, ?_, ?_, ?_, ?_⟩
  · intro h; simp [wait, h, hD]
  · intro h; simp [wait, h, hD]
  · intro h; simp [wait, h, hD]
  · intro h hr; exact ⟨rand + 1, by omega, by omega, by simp [wait, h, hD], rfl⟩
  · intro k
    constructor
    · rintro ⟨r, h1, rfl⟩; omega
    · rintro ⟨h1, h2⟩; exact ⟨k - 1, by omega, by omega⟩

/-- Witness for C7 at concrete inputs: Linear backoff with delay 5 on the
third retry waits 15; Random backoff with draw 4 waits some `k * 5` with
`k` between 1 and 10. -/
theorem c7_backoff_laws_witness :
    wait { delay := 5, backoff := .Linear } 3 0 = 3 * 5 ∧
    (∃ k, 1 ≤ k ∧ k ≤ 10 ∧ wait { delay := 5, backoff := .Random } 3 4 = k * 5 ∧ k = 4 + 1) :=
  ⟨(c7_backoff_laws { delay := 5, backoff := .Linear } 3 0 5 rfl).2.1 rfl,
   (c7_backoff_laws { delay := 5, backoff := .Random } 3 4 5 rfl).2.2.2.1 rfl (by omega)⟩

/-- C10: RetryPolicy condition matching is strict-equality membership:
`canAbortIf v` holds exactly when `v` is strictly equal (===, reference
identity for objects) to some value previously passed to `abortIf`, and
likewise `canRetryIf` for `retryIf`; a value structurally equal to, but not
identical with, a configured condition (two distinct references whose heap
payloads agree) does not match. -/
theorem c10_condition_matching (vs ws : List JsValue) (v : JsValue) :
    (RetryPolicy.canAbortIf (vs.foldl RetryPolicy.abortIf {}) v = true ↔ v ∈ vs) ∧
    (RetryPolicy.canRetryIf (ws.foldl RetryPolicy.retryIf {}) v = true ↔ v ∈ ws) ∧
    (structEq (fun _ => 5) (.obj 0) (.obj 1) = true ∧
     JsValue.obj 0 ≠ JsValue.obj 1 ∧
     RetryPolicy.canAbortIf (RetryPolicy.abortIf {} (.obj 1)) (.obj 0) = false ∧
     RetryPolicy.canRetryIf (RetryPolicy.retryIf {} (.obj 1)) (.obj 0) = false) := by
  refine ⟨?_, ?_, by decide⟩
  · rw [RetryPolicy.canAbortIf, (foldl_abortIf {} vs).1]
    simp
  · rw [RetryPolicy.canRetryIf, (foldl_retryIf {} ws).1]
    simp

/-- C8 (code bug): the code does not reject an Isolated breaker. The source
rejection check compares the state to `CircuitState.Isolate`, a property
that does not exist on the frozen `CircuitState` object (the member is
named `Isolated`), so `execute` on a breaker in state Isolated returns
normally — the operation would be invoked — and increments the fault
counter; `isolate()` itself passes that same undefined value to
`transitionTo`, whose enum guard rejects it. -/
theorem c8_isolated_not_rejected :
    CircuitBreaker.execute { attempts := 2, failureThreshold := 5, state := .Isolated } 0 =
      .ok { attempts := 3, failureThreshold := 5, state := .Isolated } ∧
    CircuitBreaker.isolate { attempts := 2, failureThreshold := 5, state := .Isolated } =
      .error () := by
  decide

/-- C1 counterexample: with `failureThreshold = 1`, after one consecutive
faulting attempt (one call to CircuitBreaker.execute with no intervening
close) the state is still Closed, not Open as the claim states — the source
trips only when the counter strictly exceeds the threshold. -/
theorem c1_counterexample :
    execN { failureThreshold := 1 } 1 = .ok { failureThreshold := 1, attempts := 1 } ∧
    ({ failureThreshold := 1, attempts := 1 } : CircuitBreaker).state ≠ CBState.Open := by
  decide

/-- C1 (amended): starting Closed, the breaker counts every admitted execute
call; after `failureThreshold` calls the state is still Closed, and the
`(failureThreshold + 1)`-th call transitions Closed to Open (that call
itself is admitted); once Open, further execute calls fail immediately with
an open-circuit error; the reset-timer expiry moves Open to HalfOpen with
the counter at `failureThreshold - 1`; the next execute call is admitted
and leaves the state HalfOpen, so an explicit close() on a successful probe
returns to Closed, while after a failing probe the state stays HalfOpen and
the following execute call is still admitted but transitions the state to
Open as it completes; close() while already Closed is a no-op that does not
reset the counter. -/
theorem c1_amended (F a : Nat) (hF : 1 ≤ F) :
    (∀ k, k ≤ F → execN { failureThreshold := F } k =
        .ok { failureThreshold := F, attempts := k }) ∧
    (execN { failureThreshold := F } (F + 1) =
        .ok { failureThreshold := F, attempts := F + 1, state := .Open,
              openTimestamp := some 0, timerArmed := true }) ∧
    (CircuitBreaker.execute
        { failureThreshold := F, attempts := F + 1, state := .Open,
          openTimestamp := some 0, timerArmed := true } 0 =
        .error .openCircuitError) ∧
    (fireResetTimer
        { failureThreshold := F, attempts := F + 1, state := .Open,
          openTimestamp := some 0, timerArmed := true } 0 =
        { failureThreshold := F, attempts := F - 1, state := .HalfOpen,
          openTimestamp := some 0, timerArmed := false }) ∧
    (CircuitBreaker.execute
        { failureThreshold := F, attempts := F - 1, state := .HalfOpen,
          openTimestamp := some 0, timerArmed := false } 0 =
        .ok { failureThreshold := F, attempts := F, state := .HalfOpen,
              openTimestamp := some 0, timerArmed := false }) ∧
    (CircuitBreaker.close
        { failureThreshold := F, attempts := F, state := .HalfOpen,
          openTimestamp := some 0, timerArmed := false } 0 =
        { failureThreshold := F, attempts := 0, state := .Closed,
          openTimestamp := none, timerArmed := false }) ∧
    (CircuitBreaker.execute
        { failureThreshold := F, attempts := F, state := .HalfOpen,
          openTimestamp := some 0, timerArmed := false } 0 =
        .ok { failureThreshold := F, attempts := F + 1, state := .Open,
              openTimestamp := some 0, timerArmed := true }) ∧
    (CircuitBreaker.close { failureThreshold := F, attempts := a } 0 =
        { failureThreshold := F, attempts := a }) := by
  have hclosed : ∀ k, k ≤ F → execN { failureThreshold := F } k =
      .ok { failureThreshold := F, attempts := k } := by
    intro k hk
    induction k with
    | zero => rfl
    | succ j ih =>
        rw [execN, ih (by omega)]
        simp only [Except.bind]
        simp [CircuitBreaker.execute, transitionTo]
        omega
  refine ⟨hclosed, ?_, ?_, ?_, ?_, ?_, ?_, ?_⟩
  · rw [execN, hclosed F (le_refl F)]
    simp only [Except.bind]
    simp [CircuitBreaker.execute, transitionTo]
  · simp [CircuitBreaker.execute]
  · have : F - 1 + 1 = F := by omega
    simp [fireResetTimer, transitionTo, this]
  · have h1 : F - 1 + 1 = F := by omega
    simp [CircuitBreaker.execute, h1]
  · simp [CircuitBreaker.close, transitionTo]
  · simp [CircuitBreaker.execute, transitionTo]
  · simp [CircuitBreaker.close, transitionTo]

/-- Witness for C1 at `failureThreshold = 2`: the third consecutive execute
call trips the breaker to Open, and the reset timer then yields HalfOpen
with the counter at 1. -/
theorem c1_amended_witness :
    execN { failureThreshold := 2 } 3 =
      .ok { failureThreshold := 2, attempts := 3, state := .Open,
            openTimestamp := some 0, timerArmed := true } ∧
    fireResetTimer
        { failureThreshold := 2, attempts := 3, state := .Open,
          openTimestamp := some 0, timerArmed := true } 0 =
      { failureThreshold := 2, attempts := 1, state := .HalfOpen,
        openTimestamp := some 0, timerArmed := false } :=
  ⟨(c1_amended 2 0 (by omega)).2.1, (c1_amended 2 0 (by omega)).2.2.2.1⟩

/-- Unfolding of one loop iteration on a failing attempt (no breaker
attached): the attempt is counted, onTimeout fires exactly when the error
is a TimeoutError, and the error is appended to the exceptions list. -/
theorem iterate_fail (r : Resilient) (op : Nat → AttemptOutcome) (s : LoopState) (e : JsError)
    (hb : s.breaker = none) (he : raceResult r (op s.ctx.attempts) = .error e) :
    iterate r op s = .next
      { ctx := { attempts := s.ctx.attempts + 1, exceptions := s.ctx.exceptions ++ [e] },
        breaker := none,
        events := s.events ++ attemptEvents r op s.ctx.attempts,
        iterations := s.iterations + 1 } := by
  obtain ⟨⟨a, ex⟩, br, ev, it⟩ := s
  simp only [LoopState.breaker] at hb
  subst hb
  simp only [LoopState.ctx, ExecutionContext.attempts] at he
  cases e <;> by_cases h0 : 0 < a <;>
    simp [iterate, iterateAttempt, attemptEvents, he, h0, List.append_assoc]

/-- Unfolding of one loop iteration when the attached breaker rejects: the
thrown OpenCircuitError is caught and appended, the attempt counter is NOT
incremented (the throw happens before `attempts++`), onTimeout does not
fire, and the loop continues. -/
theorem iterate_reject (r : Resilient) (op : Nat → AttemptOutcome) (s : LoopState)
    (cb : CircuitBreaker) (e : JsError)
    (hb : s.breaker = some cb) (he : cb.execute 0 = .error e) :
    iterate r op s = .next
      { ctx := { attempts := s.ctx.attempts, exceptions := s.ctx.exceptions ++ [e] },
        breaker := some cb,
        events := s.events ++ (if 0 < s.ctx.attempts then [Event.retry] else []),
        iterations := s.iterations + 1 } := by
  obtain ⟨⟨a, ex⟩, br, ev, it⟩ := s
  simp only [LoopState.breaker] at hb
  subst hb
  by_cases h0 : 0 < a <;> simp [iterate, he, h0]

/-- Unfolding of one loop iteration whose raced result matches an abort
condition (no breaker attached): the attempt is counted, onAbort fires, and
the loop breaks into the failure path. -/
theorem iterate_abort (r : Resilient) (op : Nat → AttemptOutcome) (s : LoopState)
    (p : RetryPolicy) (v : JsValue)
    (hb : s.breaker = none) (hp : r.retryPolicy = some p)
    (he : raceResult r (op s.ctx.attempts) = .ok v) (ha : p.canAbortIf v = true) :
    iterate r op s = .brk
      { ctx := { attempts := s.ctx.attempts + 1, exceptions := s.ctx.exceptions },
        breaker := none,
        events := s.events ++ (if 0 < s.ctx.attempts then [Event.retry] else [])
                    ++ [Event.abort],
        iterations := s.iterations + 1 } := by
  obtain ⟨⟨a, ex⟩, br, ev, it⟩ := s
  simp only [LoopState.breaker] at hb
  subst hb
  simp only [LoopState.ctx, ExecutionContext.attempts] at he
  by_cases h0 : 0 < a <;> simp [iterate, iterateAttempt, hp, he, ha, h0]

/-- Unfolding of one loop iteration whose raced result matches a retry
condition but no abort condition (no breaker attached): the attempt is
counted and the loop continues immediately. -/
theorem iterate_forcedRetry (r : Resilient) (op : Nat → AttemptOutcome) (s : LoopState)
    (p : RetryPolicy) (v : JsValue)
    (hb : s.breaker = none) (hp : r.retryPolicy = some p)
    (he : raceResult r (op s.ctx.attempts) = .ok v)
    (ha : p.canAbortIf v = false) (hr : p.canRetryIf v = true) :
    iterate r op s = .next
      { ctx := { attempts := s.ctx.attempts + 1, exceptions := s.ctx.exceptions },
        breaker := none,
        events := s.events ++ (if 0 < s.ctx.attempts then [Event.retry] else []),
        iterations := s.iterations + 1 } := by
  obtain ⟨⟨a, ex⟩, br, ev, it⟩ := s
  simp only [LoopState.breaker] at hb
  subst hb
  simp only [LoopState.ctx, ExecutionContext.attempts] at he
  by_cases h0 : 0 < a <;> simp [iterate, iterateAttempt, hp, he, ha, hr, h0]

/-- Unfolding of one loop iteration that succeeds (no breaker attached):
either no policy is configured or neither condition set matches; onSuccess
and onExit fire and the loop returns the raced value. -/
theorem iterate_success (r : Resilient) (op : Nat → AttemptOutcome) (s : LoopState)
    (v : JsValue)
    (hb : s.breaker = none)
    (he : raceResult r (op s.ctx.attempts) = .ok v)
    (hpol : r.retryPolicy = none ∨
      ∃ p, r.retryPolicy = some p ∧ p.canAbortIf v = false ∧ p.canRetryIf v = false) :
    iterate r op s = .ret
      { ctx := { attempts := s.ctx.attempts + 1, exceptions := s.ctx.exceptions },
        breaker := none,
        events := s.events ++ (if 0 < s.ctx.attempts then [Event.retry] else [])
                    ++ [Event.success, Event.exited],
        iterations := s.iterations + 1 } v := by
  obtain ⟨⟨a, ex⟩, br, ev, it⟩ := s
  simp only [LoopState.breaker] at hb
  subst hb
  simp only [LoopState.ctx, ExecutionContext.attempts] at he
  rcases hpol with hp | ⟨p, hp, ha, hr⟩ <;>
    by_cases h0 : 0 < a <;>
      simp [iterate, iterateAttempt, iterateSuccess, hp, he, h0, *]

/-- The post-loop failure path leaves the execution context and breaker
untouched and only fires hooks / produces the fallback result. -/
theorem finish_ctx (r : Resilient) (s : LoopState) :
    (finish r s).1.ctx = s.ctx ∧ (finish r s).1.breaker = s.breaker ∧
    (finish r s).1.iterations = s.iterations ∧
    (finish r s).1.events = s.events ++ [Event.failure, Event.exited]
        ++ (if r.fallbackExecution.isSome then [Event.fallback] else []) ∧
    (finish r s).2 = (match r.fallbackExecution with
                      | some w => ExecResult.value w
                      | none => ExecResult.noResult) := by
  cases hf : r.fallbackExecution <;> simp [finish, hf]

/-- One-step unfolding of the loop when the guard holds and the iteration
continues. -/
theorem executeLoop_succ_next (r : Resilient) (op : Nat → AttemptOutcome)
    (fuel : Nat) (s s' : LoopState)
    (hg : shouldRetry r s.ctx = true) (hi : iterate r op s = .next s') :
    executeLoop r op (fuel + 1) s = executeLoop r op fuel s' := by
  simp [executeLoop, hg, hi]

/-- One-step unfolding of the loop when the guard holds and the iteration
breaks out into the failure path. -/
theorem executeLoop_succ_brk (r : Resilient) (op : Nat → AttemptOutcome)
    (fuel : Nat) (s s' : LoopState)
    (hg : shouldRetry r s.ctx = true) (hi : iterate r op s = .brk s') :
    executeLoop r op (fuel + 1) s = finish r s' := by
  simp [executeLoop, hg, hi]

/-- One-step unfolding of the loop when the guard holds and the iteration
returns a result. -/
theorem executeLoop_succ_ret (r : Resilient) (op : Nat → AttemptOutcome)
    (fuel : Nat) (s s' : LoopState) (v : JsValue)
    (hg : shouldRetry r s.ctx = true) (hi : iterate r op s = .ret s' v) :
    executeLoop r op (fuel + 1) s = (s', .value v) := by
  simp [executeLoop, hg, hi]

/-- One-step unfolding of the loop when the guard fails: the failure path
runs. -/
theorem executeLoop_exit (r : Resilient) (op : Nat → AttemptOutcome)
    (fuel : Nat) (s : LoopState) (hg : shouldRetry r s.ctx = false) :
    executeLoop r op (fuel + 1) s = finish r s := by
  simp [executeLoop, hg]

/-- Composition of a run of `m` consecutive failing attempts (no breaker,
retry policy attached, guard never exhausted during the run): the loop
advances by `m` iterations, counting `m` attempts and recording the `m`
raced errors in order. -/
theorem executeLoop_failRun (r : Resilient) (op : Nat → AttemptOutcome) (p : RetryPolicy)
    (hp : r.retryPolicy = some p) :
    ∀ (m fuel : Nat) (s : LoopState),
      s.breaker = none →
      (∀ i, s.ctx.attempts ≤ i → i < s.ctx.attempts + m →
        raceResult r (op i) = .error (racedErr r op i)) →
      (p.maxAttempts = 0 ∨ s.ctx.attempts + m ≤ p.maxAttempts) →
      executeLoop r op (m + fuel) s =
        executeLoop r op fuel
          { ctx := { attempts := s.ctx.attempts + m,
                     exceptions := s.ctx.exceptions ++ racedErrs r op s.ctx.attempts m },
            breaker := none,
            events := s.events ++ failRunEvents r op s.ctx.attempts m,
            iterations := s.iterations + m } := by
  intro m
  induction m with
  | zero =>
      intro fuel s hb _ _
      obtain ⟨⟨a, ex⟩, br, ev, it⟩ := s
      simp only [LoopState.breaker] at hb
      subst hb
      simp [racedErrs, failRunEvents]
  | succ m ih =>
      intro fuel s hb herr hbound
      have hguard : shouldRetry r s.ctx = true := by
        rcases hbound with h0 | hle
        · simp [shouldRetry, hp, h0]
        · have hK : p.maxAttempts ≠ 0 := by omega
          simp [shouldRetry, hp, hK]
          omega
      have hstep : m + 1 + fuel = (m + fuel) + 1 := by omega
      rw [hstep]
      rw [executeLoop_succ_next r op (m + fuel) s _ hguard
            (iterate_fail r op s (racedErr r op s.ctx.attempts) hb
              (herr s.ctx.attempts (le_refl _) (by omega)))]
      rw [ih fuel _ rfl ?herr2 ?hbound2]
      · simp only [LoopState.ctx, ExecutionContext.attempts, ExecutionContext.exceptions,
          LoopState.events, LoopState.iterations, racedErrs, failRunEvents]
        have h1 : s.ctx.attempts + 1 + m = s.ctx.attempts + (m + 1) := by omega
        have h2 : s.iterations + 1 + m = s.iterations + (m + 1) := by omega
        rw [h1, h2]
        simp [List.append_assoc]
      case herr2 =>
        intro i h1 h2
        simp only [LoopState.ctx, ExecutionContext.attempts] at h1 h2 ⊢
        exact herr i (by omega) (by omega)
      case hbound2 =>
        simp only [LoopState.ctx, ExecutionContext.attempts]
        omega

/-- The attempt-counting core of the loop body counts exactly one attempt. -/
theorem iterateAttempt_attempts (r : Resilient) (op : Nat → AttemptOutcome) (s : LoopState) :
    (iterateAttempt r op s).state.ctx.attempts = s.ctx.attempts + 1 := by
  obtain ⟨⟨a, ex⟩, br, ev, it⟩ := s
  rcases hres : raceResult r (op a) with e | v
  · cases e <;> simp [iterateAttempt, hres, IterOut.state]
  · rcases hpol : r.retryPolicy with _ | p
    · simp [iterateAttempt, hres, hpol, iterateSuccess, IterOut.state]
    · by_cases ha : p.canAbortIf v <;> by_cases hr : p.canRetryIf v <;>
        simp [iterateAttempt, hres, hpol, iterateSuccess, IterOut.state, ha, hr]

/-- One loop iteration increments the context's attempt counter by at most
one (a breaker rejection counts no attempt). -/
theorem iterate_attempts_le (r : Resilient) (op : Nat → AttemptOutcome) (s : LoopState) :
    (iterate r op s).state.ctx.attempts ≤ s.ctx.attempts + 1 := by
  obtain ⟨⟨a, ex⟩, br, ev, it⟩ := s
  cases br with
  | none =>
      simp only [iterate]
      rw [iterateAttempt_attempts]
  | some cb =>
      rcases hcb : cb.execute 0 with e | cb'
      · simp [iterate, hcb, IterOut.state]
      · simp only [iterate, hcb]
        rw [iterateAttempt_attempts]

/-- The loop never counts more attempts than the policy's `maxAttempts`
(when that is not the unbounded sentinel 0), whatever the breaker does. -/
theorem executeLoop_attempts_le (r : Resilient) (op : Nat → AttemptOutcome) (p : RetryPolicy)
    (hp : r.retryPolicy = some p) (hK : p.maxAttempts ≠ 0) :
    ∀ (fuel : Nat) (s : LoopState), s.ctx.attempts ≤ p.maxAttempts →
      ((executeLoop r op fuel s).1).ctx.attempts ≤ p.maxAttempts := by
  intro fuel
  induction fuel with
  | zero => intro s h; simpa [executeLoop] using h
  | succ fuel ih =>
      intro s h
      by_cases hg : shouldRetry r s.ctx = true
      · have hlt : s.ctx.attempts < p.maxAttempts := by
          simp [shouldRetry, hp, hK] at hg
          exact hg
        rcases hit : iterate r op s with s' | s' | ⟨s', v⟩
        · rw [executeLoop_succ_next r op fuel s s' hg hit]
          apply ih
          have hle := iterate_attempts_le r op s
          rw [hit] at hle
          simp only [IterOut.state] at hle
          omega
        · rw [executeLoop_succ_brk r op fuel s s' hg hit]
          rw [(finish_ctx r s').1]
          have hle := iterate_attempts_le r op s
          rw [hit] at hle
          simp only [IterOut.state] at hle
          omega
        · rw [executeLoop_succ_ret r op fuel s s' v hg hit]
          have hle := iterate_attempts_le r op s
          rw [hit] at hle
          simp only [IterOut.state] at hle
          show s'.ctx.attempts ≤ p.maxAttempts
          omega
      · rw [executeLoop_exit r op fuel s (by simpa using hg)]
        rw [(finish_ctx r s).1]
        exact h

/-- A failing race settles with exactly the error `racedErr` names. -/
theorem raceResult_error_racedErr (r : Resilient) (op : Nat → AttemptOutcome) (i : Nat)
    (e : JsError) (he : raceResult r (op i) = .error e) :
    raceResult r (op i) = .error (racedErr r op i) := by
  simp [racedErr, he]

/-- With the unbounded sentinel `maxAttempts = 0`, no breaker and an
always-failing operation, the loop never terminates (it consumes any amount
of fuel). -/
theorem executeLoop_unbounded (r : Resilient) (op : Nat → AttemptOutcome) (p : RetryPolicy)
    (hp : r.retryPolicy = some p) (h0 : p.maxAttempts = 0) :
    ∀ (fuel : Nat) (s : LoopState), s.breaker = none →
      (∀ i, raceResult r (op i) = .error (racedErr r op i)) →
      (executeLoop r op fuel s).2 = .outOfFuel := by
  intro fuel
  induction fuel with
  | zero => intro s _ _; simp [executeLoop]
  | succ fuel ih =>
      intro s hb herr
      have hg : shouldRetry r s.ctx = true := by simp [shouldRetry, hp, h0]
      rw [executeLoop_succ_next r op fuel s _ hg (iterate_fail r op s _ hb (herr _))]
      exact ih _ rfl herr

/-- C2 counterexample: with no retry policy but a circuit breaker in the
Open state attached, a single `Resilient.execute` call runs the loop body
three times (given fuel 3) while counting zero attempts — the rejected
iterations make no attempt and the loop keeps going, contradicting the
claimed "loop body runs once and attempts equals 1". The source comment on
`shortCircuitWith` documents this indefinite retrying itself. -/
theorem c2_counterexample :
    (Resilient.execute
        { circuitBreaker := some { failureThreshold := 1, state := .Open } }
        (fun _ => { time := 0, result := .ok (.prim 0) }) 3).1.iterations = 3 ∧
    (Resilient.execute
        { circuitBreaker := some { failureThreshold := 1, state := .Open } }
        (fun _ => { time := 0, result := .ok (.prim 0) }) 3).1.ctx.attempts = 0 := by
  decide

/-- C2 (amended): with no retry policy AND no circuit breaker attached,
exactly one attempt is made (the loop body runs once and attempts is 1);
with a policy of `maxAttempts = K ≥ 1` attached, at most `K` attempts are
made whatever else is configured, and exactly `K` attempts are made when no
breaker is attached and every attempt fails; with `maxAttempts = 0` (and no
breaker, every attempt failing) the loop is unbounded — it consumes any
amount of fuel. With no policy but a rejecting breaker the loop body can
run any number of times while no attempt is counted (see the
counterexample). -/
theorem c2_amended :
    (∀ (r : Resilient) (op : Nat → AttemptOutcome) (fuel : Nat),
      r.retryPolicy = none → r.circuitBreaker = none → 2 ≤ fuel →
      (r.execute op fuel).1.ctx.attempts = 1 ∧ (r.execute op fuel).1.iterations = 1) ∧
    (∀ (r : Resilient) (op : Nat → AttemptOutcome) (p : RetryPolicy) (fuel : Nat),
      r.retryPolicy = some p → 1 ≤ p.maxAttempts →
      (r.execute op fuel).1.ctx.attempts ≤ p.maxAttempts) ∧
    (∀ (r : Resilient) (op : Nat → AttemptOutcome) (p : RetryPolicy) (fuel : Nat),
      r.retryPolicy = some p → r.circuitBreaker = none → 1 ≤ p.maxAttempts →
      (∀ i, i < p.maxAttempts → raceResult r (op i) = .error (racedErr r op i)) →
      p.maxAttempts + 1 ≤ fuel →
      (r.execute op fuel).1.ctx.attempts = p.maxAttempts) ∧
    (∀ (r : Resilient) (op : Nat → AttemptOutcome) (p : RetryPolicy) (fuel : Nat),
      r.retryPolicy = some p → r.circuitBreaker = none → p.maxAttempts = 0 →
      (∀ i, raceResult r (op i) = .error (racedErr r op i)) →
      (r.execute op fuel).2 = .outOfFuel) := by
  refine ⟨?_, ?_, ?_, ?_⟩
  · intro r op fuel hpol hcb hfuel
    obtain ⟨f, rfl⟩ : ∃ f, fuel = f + 2 := ⟨fuel - 2, by omega⟩
    rw [Resilient.execute, hcb]
    rcases hres : raceResult r (op 0) with e | v
    · rw [show f + 2 = (f + 1) + 1 from rfl]
      rw [executeLoop_succ_next r op (f + 1) _ _ (by simp [shouldRetry, hpol])
            (iterate_fail r op _ e rfl hres)]
      rw [executeLoop_exit r op f _ (by simp [shouldRetry, hpol])]
      rcases hfe : r.fallbackExecution with _ | w <;> simp [finish, hfe]
    · rw [show f + 2 = (f + 1) + 1 from rfl]
      rw [executeLoop_succ_ret r op (f + 1) _ _ v (by simp [shouldRetry, hpol])
            (iterate_success r op _ v rfl hres (Or.inl hpol))]
      simp
  · intro r op p fuel hp hK
    exact executeLoop_attempts_le r op p hp (by omega) fuel _ (by simp)
  · intro r op p fuel hp hcb hK herr hfuel
    obtain ⟨f, rfl⟩ : ∃ f, fuel = p.maxAttempts + (f + 1) :=
      ⟨fuel - p.maxAttempts - 1, by omega⟩
    rw [Resilient.execute, hcb]
    rw [executeLoop_failRun r op p hp p.maxAttempts (f + 1) _ rfl
        (by intro i h1 h2; exact herr i (by simpa using h2))
        (Or.inr (by simp))]
    rw [executeLoop_exit r op f _ (by simp [shouldRetry, hp]; omega)]
    rcases hfe : r.fallbackExecution with _ | w <;> simp [finish, hfe]
  · intro r op p fuel hp hcb h0 herr
    rw [Resilient.execute, hcb]
    exact executeLoop_unbounded r op p hp h0 fuel _ rfl herr

theorem c2_amended_witness :
    ((Resilient.execute {} (fun _ => { time := 0, result := .error 3 }) 2).1.ctx.attempts = 1 ∧
     (Resilient.execute {} (fun _ => { time := 0, result := .error 3 }) 2).1.iterations = 1) ∧
    (Resilient.execute { retryPolicy := some { maxAttempts := 2 } }
        (fun _ => { time := 0, result := .error 3 }) 5).1.ctx.attempts = 2 :=
  ⟨c2_amended.1 {} (fun _ => { time := 0, result := .error 3 }) 2 rfl rfl (by omega),
   c2_amended.2.2.1 { retryPolicy := some { maxAttempts := 2 } }
     (fun _ => { time := 0, result := .error 3 }) { maxAttempts := 2 } 5 rfl rfl (by decide)
     (fun i _ => rfl) (by decide)⟩

/-- One loop iteration with no breaker attached preserves the context
invariant (an error is appended only together with a counted attempt) and
attaches no breaker. -/
theorem iterate_inv (r : Resilient) (op : Nat → AttemptOutcome) (s : LoopState)
    (hb : s.breaker = none) (hinv : ctxInv s) :
    ctxInv (iterate r op s).state ∧ (iterate r op s).state.breaker = none := by
  rcases hres : raceResult r (op s.ctx.attempts) with e | v
  · rw [iterate_fail r op s e hb hres]
    refine ⟨?_, rfl⟩
    simp only [ctxInv, IterOut.state] at hinv ⊢
    simp
    omega
  · rcases hpol : r.retryPolicy with _ | p
    · rw [iterate_success r op s v hb hres (Or.inl hpol)]
      refine ⟨?_, rfl⟩
      simp only [ctxInv, IterOut.state] at hinv ⊢
      omega
    · by_cases ha : p.canAbortIf v = true
      · rw [iterate_abort r op s p v hb hpol hres ha]
        refine ⟨?_, rfl⟩
        simp only [ctxInv, IterOut.state] at hinv ⊢
        omega
      · have ha' : p.canAbortIf v = false := by simpa using ha
        by_cases hr : p.canRetryIf v = true
        · rw [iterate_forcedRetry r op s p v hb hpol hres ha' hr]
          refine ⟨?_, rfl⟩
          simp only [ctxInv, IterOut.state] at hinv ⊢
          omega
        · have hr' : p.canRetryIf v = false := by simpa using hr
          rw [iterate_success r op s v hb hres (Or.inr ⟨p, hpol, ha', hr'⟩)]
          refine ⟨?_, rfl⟩
          simp only [ctxInv, IterOut.state] at hinv ⊢
          omega

/-- The whole loop preserves the context invariant when no breaker is
attached. -/
theorem executeLoop_inv (r : Resilient) (op : Nat → AttemptOutcome) :
    ∀ (fuel : Nat) (s : LoopState), s.breaker = none → ctxInv s →
      ctxInv (executeLoop r op fuel s).1 := by
  intro fuel
  induction fuel with
  | zero => intro s _ hinv; simpa [executeLoop] using hinv
  | succ fuel ih =>
      intro s hb hinv
      by_cases hg : shouldRetry r s.ctx = true
      · rcases hit : iterate r op s with s' | s' | ⟨s', v⟩
        · rw [executeLoop_succ_next r op fuel s s' hg hit]
          have hpres := iterate_inv r op s hb hinv
          rw [hit] at hpres
          simp only [IterOut.state] at hpres
          exact ih s' hpres.2 hpres.1
        · rw [executeLoop_succ_brk r op fuel s s' hg hit]
          have hpres := iterate_inv r op s hb hinv
          rw [hit] at hpres
          simp only [IterOut.state] at hpres
          simpa [ctxInv, (finish_ctx r s').1] using hpres.1
        · rw [executeLoop_succ_ret r op fuel s s' v hg hit]
          have hpres := iterate_inv r op s hb hinv
          rw [hit] at hpres
          simp only [IterOut.state] at hpres
          exact hpres.1
      · rw [executeLoop_exit r op fuel s (by simpa using hg)]
        simpa [ctxInv, (finish_ctx r s).1] using hinv

/-- C3 counterexample: with a retry policy of one attempt and a breaker in
the Open state, the very first iteration catches the open-circuit error and
appends it without having counted an attempt, so mid-execution the context
holds one exception but zero attempts — `exceptions.length ≤ attempts`
fails at that point (the throw at src/CircuitBreaker.js line 96 happens
before the `attempts++` of src/unnamed/part_001 line 180). -/
theorem c3_counterexample :
    (Resilient.execute
        { retryPolicy := some { maxAttempts := 1 },
          circuitBreaker := some { failureThreshold := 1, state := .Open } }
        (fun _ => { time := 0, result := .ok (.prim 0) }) 1).1.ctx.exceptions.length = 1 ∧
    (Resilient.execute
        { retryPolicy := some { maxAttempts := 1 },
          circuitBreaker := some { failureThreshold := 1, state := .Open } }
        (fun _ => { time := 0, result := .ok (.prim 0) }) 1).1.ctx.attempts = 0 := by
  decide

/-- C3 (amended): when no circuit breaker is attached the invariant
`exceptions.length ≤ attempts` holds after every loop iteration and at
completion of every `Resilient.execute` call; a rejection by an attached
breaker appends an open-circuit error without counting an attempt, so in
general the invariant can fail (see the counterexample). -/
theorem c3_amended :
    (∀ (r : Resilient) (op : Nat → AttemptOutcome) (s : LoopState),
      s.breaker = none → ctxInv s → ctxInv (iterate r op s).state) ∧
    (∀ (r : Resilient) (op : Nat → AttemptOutcome) (fuel : Nat),
      r.circuitBreaker = none → ctxInv (r.execute op fuel).1) := by
  constructor
  · intro r op s hb hinv
    exact (iterate_inv r op s hb hinv).1
  · intro r op fuel hcb
    rw [Resilient.execute, hcb]
    exact executeLoop_inv r op fuel _ rfl (by simp [ctxInv])

/-- Witness for C3 at a concrete breaker-free execution of a failing
operation: the completed context satisfies the invariant. -/
theorem c3_amended_witness :
    ctxInv (Resilient.execute {} (fun _ => { time := 0, result := .error 3 }) 2).1 :=
  c3_amended.2 {} (fun _ => { time := 0, result := .error 3 }) 2 rfl

/-- C4: attempt-level errors are absorbed, never re-raised. With a policy of
`K ≥ 1` attempts, no breaker and no fallback, when every attempt fails the
call completes with no result (the loop's catch block spans the whole
attempt body, so nothing propagates) and the context's exceptions list is
exactly the raced errors of attempts `0..K-1` in order; and an iteration
whose attached breaker rejects likewise catches the thrown open-circuit
error, appends it to the exceptions list, and continues the loop. -/
theorem c4_errors_captured :
    (∀ (r : Resilient) (op : Nat → AttemptOutcome) (p : RetryPolicy) (fuel : Nat),
      r.retryPolicy = some p → r.circuitBreaker = none → r.fallbackExecution = none →
      1 ≤ p.maxAttempts →
      (∀ i, i < p.maxAttempts → raceResult r (op i) = .error (racedErr r op i)) →
      p.maxAttempts + 1 ≤ fuel →
      (r.execute op fuel).1.ctx.exceptions = racedErrs r op 0 p.maxAttempts ∧
      (r.execute op fuel).2 = .noResult) ∧
    (∀ (r : Resilient) (op : Nat → AttemptOutcome) (s : LoopState)
        (cb : CircuitBreaker) (e : JsError),
      s.breaker = some cb → cb.execute 0 = .error e →
      (iterate r op s).state.ctx.exceptions = s.ctx.exceptions ++ [e] ∧
      ∃ s', iterate r op s = .next s') := by
  constructor
  · intro r op p fuel hp hcb hfb hK herr hfuel
    obtain ⟨f, rfl⟩ : ∃ f, fuel = p.maxAttempts + (f + 1) :=
      ⟨fuel - p.maxAttempts - 1, by omega⟩
    rw [Resilient.execute, hcb]
    rw [executeLoop_failRun r op p hp p.maxAttempts (f + 1) _ rfl
        (by intro i h1 h2; exact herr i (by simpa using h2))
        (Or.inr (by simp))]
    rw [executeLoop_exit r op f _ (by simp [shouldRetry, hp]; omega)]
    simp [finish, hfb]
  · intro r op s cb e hb he
    rw [iterate_reject r op s cb e hb he]
    exact ⟨rfl, _, rfl⟩

/-- Witness for C4: a two-attempt policy over an operation that first
raises error 1 and then loses the race against a 5-unit timeout completes
with no result and records exactly those two errors in order; a breaker in
the Open state makes the iteration append the open-circuit error and loop
on. -/
theorem c4_errors_captured_witness :
    ((Resilient.execute { retryPolicy := some { maxAttempts := 2 }, timeout := 5 }
        (fun i => if i = 0 then { time := 0, result := .error 1 }
                  else { time := 10, result := .ok (.prim 0) }) 4).1.ctx.exceptions =
      [JsError.opError 1, JsError.timeoutError 5] ∧
     (Resilient.execute { retryPolicy := some { maxAttempts := 2 }, timeout := 5 }
        (fun i => if i = 0 then { time := 0, result := .error 1 }
                  else { time := 10, result := .ok (.prim 0) }) 4).2 = .noResult) ∧
    ((iterate {} (fun _ => { time := 0, result := .ok (.prim 0) })
        { ctx := {}, breaker := some { failureThreshold := 1, state := .Open },
          events := [Event.entry] }).state.ctx.exceptions =
      [] ++ [JsError.openCircuitError]) := by
  refine ⟨?_, ?_⟩
  · have h := c4_errors_captured.1 { retryPolicy := some { maxAttempts := 2 }, timeout := 5 }
      (fun i => if i = 0 then { time := 0, result := .error 1 }
                else { time := 10, result := .ok (.prim 0) })
      { maxAttempts := 2 } 4 rfl rfl rfl (by decide)
      (by intro i hi
          interval_cases i <;> decide) (by decide)
    simpa using h
  · exact (c4_errors_captured.2 {} (fun _ => { time := 0, result := .ok (.prim 0) })
      { ctx := {}, breaker := some { failureThreshold := 1, state := .Open },
        events := [Event.entry] }
      { failureThreshold := 1, state := .Open } .openCircuitError rfl (by decide)).1

/-- A failing attempt fires no onAbort. -/
theorem attemptEvents_count_abort (r : Resilient) (op : Nat → AttemptOutcome) (i : Nat) :
    (attemptEvents r op i).count Event.abort = 0 := by
  rcases hres : raceResult r (op i) with e | v
  · cases e <;> by_cases h0 : 0 < i <;> simp [attemptEvents, hres, h0]
  · by_cases h0 : 0 < i <;> simp [attemptEvents, hres, h0]

/-- A run of failing attempts fires no onAbort. -/
theorem failRunEvents_count_abort (r : Resilient) (op : Nat → AttemptOutcome) :
    ∀ (m a : Nat), (failRunEvents r op a m).count Event.abort = 0 := by
  intro m
  induction m with
  | zero => intro a; simp [failRunEvents]
  | succ m ih =>
      intro a
      simp [failRunEvents, List.count_append, attemptEvents_count_abort, ih]

/-- C5 counterexample: with a retry policy whose abort conditions contain
the result and a fallback configured, the abort `break` falls through to
the post-loop failure path and `execute` returns the fallback's result, not
undefined as the claim states. -/
theorem c5_counterexample :
    (Resilient.execute
        { retryPolicy := some { maxAttempts := 3, abortConditions := [.prim 7] },
          fallbackExecution := some (.prim 42) }
        (fun _ => { time := 0, result := .ok (.prim 7) }) 5).2 =
      ExecResult.value (.prim 42) ∧
    ExecResult.value (JsValue.prim 42) ≠ ExecResult.noResult := by
  decide

/-- C5 (amended): when the raced result of an attempt matches a configured
abortIf value (after any number of failing attempts, with attempts still
remaining), the loop stops on that attempt — no further iterations or
attempts happen — onAbort fires exactly once, and `execute` returns
undefined when no fallback is configured (with a fallback configured, the
abort exits into the failure path and the fallback's result is returned). -/
theorem c5_abort (r : Resilient) (op : Nat → AttemptOutcome) (p : RetryPolicy)
    (j fuel : Nat) (v : JsValue)
    (hp : r.retryPolicy = some p) (hcb : r.circuitBreaker = none)
    (herr : ∀ i, i < j → raceResult r (op i) = .error (racedErr r op i))
    (hok : raceResult r (op j) = .ok v) (habort : p.canAbortIf v = true)
    (hbound : p.maxAttempts = 0 ∨ j < p.maxAttempts)
    (hfuel : j + 1 ≤ fuel) :
    (r.execute op fuel).1.ctx.attempts = j + 1 ∧
    (r.execute op fuel).1.iterations = j + 1 ∧
    (r.execute op fuel).1.events.count Event.abort = 1 ∧
    (r.execute op fuel).2 = (match r.fallbackExecution with
                             | some w => ExecResult.value w
                             | none => ExecResult.noResult) := by
  obtain ⟨f, rfl⟩ : ∃ f, fuel = j + (f + 1) := ⟨fuel - j - 1, by omega⟩
  rw [Resilient.execute, hcb]
  rw [executeLoop_failRun r op p hp j (f + 1) _ rfl
      (by intro i h1 h2; exact herr i (by simpa using h2))
      (by rcases hbound with h0 | hlt
          · exact Or.inl h0
          · exact Or.inr (by simp; omega))]
  rw [executeLoop_succ_brk r op f _ _
      (by rcases hbound with h0 | hlt
          · simp [shouldRetry, hp, h0]
          · have hK : p.maxAttempts ≠ 0 := by omega
            simp [shouldRetry, hp, hK]
            omega)
      (iterate_abort r op _ p v rfl hp (by simpa using hok) habort)]
  have hfin := finish_ctx r
      { ctx := { attempts := 0 + j + 1, exceptions := [] ++ racedErrs r op 0 j },
        breaker := none,
        events := ([Event.entry] ++ failRunEvents r op 0 j)
                    ++ (if 0 < 0 + j then [Event.retry] else []) ++ [Event.abort],
        iterations := 0 + j + 1 }
  refine ⟨?_, ?_, ?_, ?_⟩
  · rw [hfin.1]
    simp
  · rw [hfin.2.2.1]
    simp
  · rw [hfin.2.2.2.1]
    rcases hfb : r.fallbackExecution with _ | w <;>
      by_cases h0 : 0 < j <;>
        simp [hfb, h0, List.count_append, failRunEvents_count_abort]
  · rw [hfin.2.2.2.2]

/-- Witness for C5: after one failing attempt, an attempt whose result 7
matches the configured abort condition stops the loop at two attempts with
one onAbort firing and no result. -/
theorem c5_abort_witness :
    (Resilient.execute { retryPolicy := some { maxAttempts := 3, abortConditions := [.prim 7] } }
        (fun i => if i = 0 then { time := 0, result := .error 9 }
                  else { time := 0, result := .ok (.prim 7) }) 3).1.ctx.attempts = 2 ∧
    (Resilient.execute { retryPolicy := some { maxAttempts := 3, abortConditions := [.prim 7] } }
        (fun i => if i = 0 then { time := 0, result := .error 9 }
                  else { time := 0, result := .ok (.prim 7) }) 3).1.events.count Event.abort = 1 ∧
    (Resilient.execute { retryPolicy := some { maxAttempts := 3, abortConditions := [.prim 7] } }
        (fun i => if i = 0 then { time := 0, result := .error 9 }
                  else { time := 0, result := .ok (.prim 7) }) 3).2 = ExecResult.noResult := by
  have h := c5_abort { retryPolicy := some { maxAttempts := 3, abortConditions := [.prim 7] } }
    (fun i => if i = 0 then { time := 0, result := .error 9 }
              else { time := 0, result := .ok (.prim 7) })
    { maxAttempts := 3, abortConditions := [.prim 7] } 1 3 (.prim 7)
    rfl rfl (by intro i hi; interval_cases i; decide) (by decide) (by decide)
    (Or.inr (by decide)) (by decide)
  exact ⟨h.1, h.2.2.1, h.2.2.2⟩

/-- An iteration whose race settles with a value (no breaker) fires no
onTimeout and appends no exception, whatever the policy decides. -/
theorem iterate_ok_counts (r : Resilient) (op : Nat → AttemptOutcome) (s : LoopState)
    (v : JsValue) (hb : s.breaker = none)
    (hres : raceResult r (op s.ctx.attempts) = .ok v) :
    (iterate r op s).state.events.count Event.timeout = s.events.count Event.timeout ∧
    (iterate r op s).state.ctx.exceptions = s.ctx.exceptions := by
  rcases hpol : r.retryPolicy with _ | p
  · rw [iterate_success r op s v hb hres (Or.inl hpol)]
    by_cases h0 : 0 < s.ctx.attempts <;> simp [IterOut.state, h0, List.count_append]
  · by_cases ha : p.canAbortIf v = true
    · rw [iterate_abort r op s p v hb hpol hres ha]
      by_cases h0 : 0 < s.ctx.attempts <;> simp [IterOut.state, h0, List.count_append]
    · have ha' : p.canAbortIf v = false := by simpa using ha
      by_cases hr : p.canRetryIf v = true
      · rw [iterate_forcedRetry r op s p v hb hpol hres ha' hr]
        by_cases h0 : 0 < s.ctx.attempts <;> simp [IterOut.state, h0, List.count_append]
      · have hr' : p.canRetryIf v = false := by simpa using hr
        rw [iterate_success r op s v hb hres (Or.inr ⟨p, hpol, ha', hr'⟩)]
        by_cases h0 : 0 < s.ctx.attempts <;> simp [IterOut.state, h0, List.count_append]

/-- C6: with a configured timeout `T > 0` (and no breaker rejection), an
attempt whose operation settles before `T` fires no onTimeout and records
no timeout error, while an attempt whose deadline elapses first fails with
a timeout error carrying exactly `T`: onTimeout fires exactly once for that
attempt and the timeout error is that attempt's appended entry in the
context's exceptions list. -/
theorem c6_timeout_race (r : Resilient) (op : Nat → AttemptOutcome) (s : LoopState) (T : Nat)
    (hT : r.timeout = T) (hT0 : 0 < T) (hb : s.breaker = none) :
    ((op s.ctx.attempts).time < T →
      (iterate r op s).state.events.count Event.timeout = s.events.count Event.timeout ∧
      (iterate r op s).state.ctx.exceptions.countP JsError.isTimeout =
        s.ctx.exceptions.countP JsError.isTimeout) ∧
    (T < (op s.ctx.attempts).time →
      iterate r op s = .next
        { ctx := { attempts := s.ctx.attempts + 1,
                   exceptions := s.ctx.exceptions ++ [.timeoutError T] },
          breaker := none,
          events := s.events ++ (if 0 < s.ctx.attempts then [Event.retry] else [])
                      ++ [Event.timeout],
          iterations := s.iterations + 1 }) := by
  constructor
  · intro hfast
    have hnr : ¬(0 < r.timeout ∧ r.timeout < (op s.ctx.attempts).time) := by
      rw [hT]; omega
    rcases hop : (op s.ctx.attempts).result with c | v
    · have hres : raceResult r (op s.ctx.attempts) = .error (.opError c) := by
        simp [raceResult, hop, hnr]
      rw [iterate_fail r op s _ hb hres]
      constructor
      · by_cases h0 : 0 < s.ctx.attempts <;>
          simp [IterOut.state, attemptEvents, hres, h0, List.count_append]
      · simp [IterOut.state, List.countP_append, JsError.isTimeout]
    · have hres : raceResult r (op s.ctx.attempts) = .ok v := by
        simp [raceResult, hop, hnr]
      have hc := iterate_ok_counts r op s v hb hres
      exact ⟨hc.1, by rw [hc.2]⟩
  · intro hslow
    have hres : raceResult r (op s.ctx.attempts) = .error (.timeoutError T) := by
      simp [raceResult, hT, hT0, hslow]
    rw [iterate_fail r op s _ hb hres]
    simp [attemptEvents, hres, List.append_assoc]

/-- Witness for C6: with timeout 5, an operation settling at time 1 fires
no onTimeout, while one settling at time 9 produces exactly the
`timeoutError 5` entry and one onTimeout event. -/
theorem c6_timeout_race_witness :
    ((iterate { timeout := 5 } (fun _ => { time := 1, result := .ok (.prim 0) })
        { events := [Event.entry] }).state.events.count Event.timeout =
      ([Event.entry] : List Event).count Event.timeout) ∧
    (iterate { timeout := 5 } (fun _ => { time := 9, result := .ok (.prim 0) })
        { events := [Event.entry] } = .next
      { ctx := { attempts := 0 + 1, exceptions := [] ++ [.timeoutError 5] },
        breaker := none,
        events := [Event.entry] ++ (if 0 < 0 then [Event.retry] else []) ++ [Event.timeout],
        iterations := 0 + 1 }) :=
  ⟨((c6_timeout_race { timeout := 5 } (fun _ => { time := 1, result := .ok (.prim 0) })
      { events := [Event.entry] } 5 rfl (by decide) rfl).1 (by decide)).1,
   (c6_timeout_race { timeout := 5 } (fun _ => { time := 9, result := .ok (.prim 0) })
      { events := [Event.entry] } 5 rfl (by decide) rfl).2 (by decide)⟩

/-- The attempt core of the loop body never fires onThrottled. -/
theorem iterateAttempt_count_throttled (r : Resilient) (op : Nat → AttemptOutcome)
    (s : LoopState) :
    (iterateAttempt r op s).state.events.count Event.throttled =
      s.events.count Event.throttled := by
  obtain ⟨⟨a, ex⟩, br, ev, it⟩ := s
  rcases hres : raceResult r (op a) with e | v
  · cases e <;> simp [iterateAttempt, hres, IterOut.state, List.count_append]
  · rcases hpol : r.retryPolicy with _ | p
    · simp [iterateAttempt, iterateSuccess, hres, hpol, IterOut.state, List.count_append]
    · by_cases ha : p.canAbortIf v <;> by_cases hr : p.canRetryIf v <;>
        simp [iterateAttempt, iterateSuccess, hres, hpol, ha, hr, IterOut.state,
          List.count_append]

/-- No loop iteration ever fires onThrottled (`execute` never references
that hook: the throttle branch at src/unnamed/part_001 lines 187-188 is
guarded by the never-assigned `rateLimit` field). -/
theorem iterate_count_throttled (r : Resilient) (op : Nat → AttemptOutcome) (s : LoopState) :
    (iterate r op s).state.events.count Event.throttled =
      s.events.count Event.throttled := by
  obtain ⟨⟨a, ex⟩, br, ev, it⟩ := s
  cases br with
  | none =>
      simp only [iterate]
      rw [iterateAttempt_count_throttled]
      by_cases h0 : 0 < a <;> simp [h0, List.count_append]
  | some cb =>
      rcases hcb : cb.execute 0 with e | cb'
      · by_cases h0 : 0 < a <;> simp [iterate, hcb, h0, IterOut.state, List.count_append]
      · simp only [iterate, hcb]
        rw [iterateAttempt_count_throttled]
        by_cases h0 : 0 < a <;> simp [h0, List.count_append]

/-- The whole loop never fires onThrottled. -/
theorem executeLoop_count_throttled (r : Resilient) (op : Nat → AttemptOutcome) :
    ∀ (fuel : Nat) (s : LoopState),
      (executeLoop r op fuel s).1.events.count Event.throttled =
        s.events.count Event.throttled := by
  intro fuel
  induction fuel with
  | zero => intro s; simp [executeLoop]
  | succ fuel ih =>
      intro s
      by_cases hg : shouldRetry r s.ctx = true
      · rcases hit : iterate r op s with s' | s' | ⟨s', v⟩
        · rw [executeLoop_succ_next r op fuel s s' hg hit, ih s']
          have hc := iterate_count_throttled r op s
          rw [hit] at hc
          simpa [IterOut.state] using hc
        · rw [executeLoop_succ_brk r op fuel s s' hg hit]
          have hc := iterate_count_throttled r op s
          rw [hit] at hc
          simp only [IterOut.state] at hc
          rw [(finish_ctx r s').2.2.2.1]
          rcases hfb : r.fallbackExecution with _ | w <;>
            simp [hfb, List.count_append, hc]
        · rw [executeLoop_succ_ret r op fuel s s' v hg hit]
          have hc := iterate_count_throttled r op s
          rw [hit] at hc
          simpa [IterOut.state] using hc
      · rw [executeLoop_exit r op fuel s (by simpa using hg)]
        rw [(finish_ctx r s).2.2.2.1]
        rcases hfb : r.fallbackExecution with _ | w <;> simp [hfb, List.count_append]

/-- C9 (code bug): throttling never activates. The `throttle(rateLimit)`
builder stores the rate in the `throttleLimit` field, while `execute` reads
the `rateLimit` field, which no builder ever assigns (it stays at its
undefined/0 default, in particular after `throttle 5` on a fresh
orchestrator), so every attempt invokes the operation directly with no
deferral and `onThrottled` never fires in any execution — contradicting the
claimed rate bound and the repository's own throttling test. -/
theorem c9_throttle_ineffective :
    (∀ (r0 : Resilient) (rate : Nat),
      (r0.throttle rate).rateLimit = r0.rateLimit ∧
      (r0.throttle rate).throttleLimit = rate) ∧
    ((({} : Resilient).throttle 5).rateLimit = 0) ∧
    (∀ (r : Resilient) (op : Nat → AttemptOutcome) (fuel : Nat),
      (r.execute op fuel).1.events.count Event.throttled = 0) := by
  refine ⟨fun r0 rate => ⟨rfl, rfl⟩, rfl, ?_⟩
  intro r op fuel
  rw [Resilient.execute, executeLoop_count_throttled]
  simp
